import Mathlib

/-!
Shallow embedding of the upreach-Backend availability / booking engine.

The repository is a Node/Express backend; `src/functions/index.js` concatenates
several near-duplicate variants.  The claims reference the third variant's
`book` (index.js:1027-1175), `cancel` (index.js:1181-1281) and `findNearest`
(index.js:1287-1357), and the `POST /testdrive` route (index.js:801-1005,
also src/unnamed/part_001:258-506).

Times are modelled at minute granularity: a local wall-clock instant is an
integer number of minutes, and luxon's `DateTime.hour` / `.minute` accessors
become `localHour` / `localMin` below.  External collaborators (Google
freebusy, the events list, the Supabase store, the pick_free_car RPC) are
inputs: their responses are fields of an environment record, and store
mutations are tracked by explicit state passing.
-/

namespace Upreach

/-- Hour-of-day of a local instant given in minutes (luxon `DateTime.hour`). -/
def localHour (t : Int) : Int := t.emod 1440 / 60

/-- Minute-of-hour of a local instant given in minutes (luxon `DateTime.minute`). -/
def localMin (t : Int) : Int := t.emod 60

/-- Minutes since local midnight; equals `hour*60 + minute`, i.e. the
fractional-hour value `hour + minute/60` scaled by 60. -/
def minutesOfDay (t : Int) : Int := t.emod 1440

/-- Model of JavaScript `String.prototype.toLowerCase()`: lower-case every
character. -/
def lowerStr (s : String) : String := ⟨s.data.map Char.toLower⟩

/-- Model of JavaScript `String.prototype.trim()`: strip leading and
trailing whitespace. -/
def trimStr (s : String) : String :=
  ⟨((s.data.dropWhile Char.isWhitespace).reverse.dropWhile
      Char.isWhitespace).reverse⟩

/-! ### BOOK APPOINTMENT (index.js:1027-1175, variant 3) -/

/-- Request fields read by `book` (destructured from `data` at index.js:1030).
`none` models an absent/falsy JSON field; an empty string models a missing
required string field. -/
structure BookReq where
  name : String
  email : Option String
  phone : Option String
  /-- local start instant in minutes (luxon `startLux`), `none` = missing. -/
  bookingTime : Option Int
  calendarId : String
  blockingCalendarId : Option String
  officeStart : Option Int
  officeEnd : Option Int
  durationMin : Option Int
  maxOverlaps : Option Int

/-- External-world inputs consumed by one `book` call: the current time and
the freebusy response lengths for the blocking and primary calendars over the
requested window (index.js:1089-1116). -/
structure BookEnv where
  now : Int
  /-- `(fb.data.calendars[blockingId]?.busy || []).length` -/
  blockBusy : Nat
  /-- `(fb.data.calendars[calendarId]?.busy || []).length` -/
  mainBusy : Nat

/-- Responses `book` can produce; the `Bool` component of `book`'s result
records whether `calendar.events.insert` was executed. -/
inductive BookResp where
  | err (msg : String)
  | rejected (reason : String)
  | success
deriving DecidableEq, Repr

/-- Effective duration: `parseInt(data.durationMin) || 60` followed by the
`durationMin <= 0` re-default (index.js:1042-1045). -/
def effDuration (req : BookReq) : Int :=
  match req.durationMin with
  | some d => if d ≤ 0 then 60 else d
  | none => 60

/-- Effective capacity ceiling: `data.maxOverlaps || DEFAULTS.maxOverlaps`
(index.js:1047); JS `||` treats 0 as falsy. -/
def effMaxOverlaps (req : BookReq) : Int :=
  match req.maxOverlaps with
  | some m => if m = 0 then 5 else m
  | none => 5

/-- `data.officeStart ?? DEFAULTS.officeStart` (index.js:1040). -/
def effOfficeStart (req : BookReq) : Int := req.officeStart.getD 9

/-- `data.officeEnd ?? DEFAULTS.officeEnd` (index.js:1041). -/
def effOfficeEnd (req : BookReq) : Int := req.officeEnd.getD 17

/-- Body of `book` after the missing-field validation, with `t` the parsed
local start instant (index.js:1051-1175).  Note the capacity check
(index.js:1117-1131): the `slot_full` return sits inside a nested
`if (busyBlock.length > 0)` block, so it is reachable only when the blocking
calendar is busy — which already returned `slot_blocked` earlier; otherwise
control falls through to the event insertion. -/
def bookChecked (req : BookReq) (env : BookEnv) (t : Int) : BookResp × Bool :=
  if t - env.now < 30 then
    (BookResp.rejected "too_soon", false)
  else if localHour t < effOfficeStart req ∨
      localHour (t + effDuration req) > effOfficeEnd req ∨
      (localHour (t + effDuration req) = effOfficeEnd req ∧
        0 < localMin (t + effDuration req)) then
    (BookResp.rejected "outside_office_hours", false)
  else if 0 < env.blockBusy then
    (BookResp.rejected "slot_blocked", false)
  else if effMaxOverlaps req ≤ (env.mainBusy : Int) ∧ 0 < env.blockBusy then
    (BookResp.rejected "slot_full", false)
  else
    (BookResp.success, true)

/-- `book` (index.js:1027-1175): missing-field validation
(index.js:1034-1036) and then the checked pipeline. -/
def book (req : BookReq) (env : BookEnv) : BookResp × Bool :=
  if req.name = "" ∨ req.bookingTime = none ∨ req.calendarId = "" then
    (BookResp.err "Missing name, calendarId or bookingTime", false)
  else
    bookChecked req env (req.bookingTime.getD 0)

/-- Concrete request hitting the capacity-ceiling branch: 10:00 local start,
all config defaulted. -/
def fullReq : BookReq :=
  { name := "Ann", email := none, phone := none, bookingTime := some 600,
    calendarId := "cal", blockingCalendarId := none, officeStart := none,
    officeEnd := none, durationMin := none, maxOverlaps := none }

/-- Environment for `fullReq`: blocking calendar clear, primary busy count at
the default ceiling (5 ≥ 5). -/
def fullEnv : BookEnv := { now := 0, blockBusy := 0, mainBusy := 5 }

/-- C1 — code bug.  The claim states that a clear blocking calendar together
with a primary busy count at or above the capacity ceiling yields
`rejected/slot_full` with no event inserted.  In the code (index.js:1117-1131,
likewise 445-458) the `slot_full` return is nested inside a dead
`if (busyBlock.length > 0)` guard, so `book` can never answer `slot_full`;
on the claimed input it inserts the calendar event and reports success. -/
theorem book_slot_full_unreachable :
    (∀ (req : BookReq) (env : BookEnv),
      (book req env).1 ≠ BookResp.rejected "slot_full") ∧
    book fullReq fullEnv = (BookResp.success, true) := by
  constructor
  · intro req env
    unfold book bookChecked
    split
    · simp
    · split
      · simp
      · split
        · simp
        · split
          · simp
          · split
            · rename_i hblock hfull
              exact absurd hfull.2 hblock
            · simp
  · rfl

/-- C2 — the hard block always wins.  For a request that passes field
validation, the lead-time check and the office-hours check, a blocking
calendar reporting at least one busy interval makes `book` answer
`rejected/slot_blocked`, whatever the primary calendar's busy count
(index.js:1101-1114). -/
theorem book_block_always_wins (req : BookReq) (env : BookEnv) (t : Int)
    (hname : req.name ≠ "") (hbt : req.bookingTime = some t)
    (hcal : req.calendarId ≠ "")
    (hlead : 30 ≤ t - env.now)
    (hhours : ¬(localHour t < effOfficeStart req ∨
      localHour (t + effDuration req) > effOfficeEnd req ∨
      (localHour (t + effDuration req) = effOfficeEnd req ∧
        0 < localMin (t + effDuration req))))
    (hblock : 0 < env.blockBusy) :
    (book req env).1 = BookResp.rejected "slot_blocked" := by
  have hbook : book req env = bookChecked req env t := by
    unfold book
    rw [if_neg (by simp [hname, hbt, hcal]), hbt]
    simp only [Option.getD_some]
  rw [hbook]
  unfold bookChecked
  rw [if_neg (by omega), if_neg hhours, if_pos hblock]

/-- Witness for C2: 10:00 slot, defaults, blocking calendar busy, primary
calendar far over capacity — still `slot_blocked`. -/
theorem book_block_always_wins_witness :
    (book fullReq { now := 0, blockBusy := 1, mainBusy := 100 }).1 =
      BookResp.rejected "slot_blocked" :=
  book_block_always_wins fullReq _ 600 (by decide) rfl (by decide)
    (by decide) (by decide) (by decide)

/-- C3 — minimum lead time first.  For a request that passes field
validation, a start less than 30 minutes after `now` is rejected `too_soon`
regardless of every other field; the check precedes the office-hours check
(index.js:1051-1068), so the theorem carries no hypothesis about office
hours. -/
theorem book_too_soon_first (req : BookReq) (env : BookEnv) (t : Int)
    (hname : req.name ≠ "") (hbt : req.bookingTime = some t)
    (hcal : req.calendarId ≠ "")
    (hlead : t - env.now < 30) :
    (book req env).1 = BookResp.rejected "too_soon" := by
  have hbook : book req env = bookChecked req env t := by
    unfold book
    rw [if_neg (by simp [hname, hbt, hcal]), hbt]
    simp only [Option.getD_some]
  rw [hbook]
  unfold bookChecked
  rw [if_pos hlead]

/-- Witness for C3: a 05:00 start (outside the 9-17 office hours) only 10
minutes away is rejected `too_soon`, not `outside_office_hours`. -/
theorem book_too_soon_first_witness :
    (book { fullReq with bookingTime := some 300 }
      { now := 290, blockBusy := 0, mainBusy := 0 }).1 =
      BookResp.rejected "too_soon" :=
  book_too_soon_first _ _ 300 (by decide) rfl (by decide) (by decide)

/-- C4 — office-hours rule.  For a request past validation and the lead-time
check, `book` rejects `outside_office_hours` exactly when local start-hour <
officeStart, or local end-hour > officeEnd, or end-hour = officeEnd with a
nonzero end minute (index.js:1069-1084); consequently every window it lets
through satisfies start-hour ≥ officeStart and end-hour ≤ officeEnd, with
end-hour = officeEnd only at minute 0. -/
theorem book_office_hours_iff (req : BookReq) (env : BookEnv) (t : Int)
    (hname : req.name ≠ "") (hbt : req.bookingTime = some t)
    (hcal : req.calendarId ≠ "")
    (hlead : 30 ≤ t - env.now) :
    ((book req env).1 = BookResp.rejected "outside_office_hours" ↔
      (localHour t < effOfficeStart req ∨
        localHour (t + effDuration req) > effOfficeEnd req ∨
        (localHour (t + effDuration req) = effOfficeEnd req ∧
          0 < localMin (t + effDuration req)))) ∧
    ((book req env).1 ≠ BookResp.rejected "outside_office_hours" →
      effOfficeStart req ≤ localHour t ∧
      localHour (t + effDuration req) ≤ effOfficeEnd req ∧
      (localHour (t + effDuration req) = effOfficeEnd req →
        localMin (t + effDuration req) = 0)) := by
  have hbook : book req env = bookChecked req env t := by
    unfold book
    rw [if_neg (by simp [hname, hbt, hcal]), hbt]
    simp only [Option.getD_some]
  have hiff : (book req env).1 = BookResp.rejected "outside_office_hours" ↔
      (localHour t < effOfficeStart req ∨
        localHour (t + effDuration req) > effOfficeEnd req ∨
        (localHour (t + effDuration req) = effOfficeEnd req ∧
          0 < localMin (t + effDuration req))) := by
    rw [hbook]
    unfold bookChecked
    rw [if_neg (by omega)]
    by_cases hcond : (localHour t < effOfficeStart req ∨
        localHour (t + effDuration req) > effOfficeEnd req ∨
        (localHour (t + effDuration req) = effOfficeEnd req ∧
          0 < localMin (t + effDuration req)))
    · rw [if_pos hcond]
      exact ⟨fun _ => hcond, fun _ => rfl⟩
    · rw [if_neg hcond]
      refine ⟨fun hres => ?_, fun h => absurd h hcond⟩
      exfalso
      revert hres
      split
      · intro hres
        exact absurd hres (by decide)
      · split
        · intro hres
          exact absurd hres (by decide)
        · intro hres
          exact absurd hres (by decide)
  refine ⟨hiff, fun hne => ?_⟩
  have hcond := mt hiff.mpr hne
  push_neg at hcond
  have hmnonneg : 0 ≤ localMin (t + effDuration req) :=
    Int.emod_nonneg _ (by norm_num)
  exact ⟨hcond.1, hcond.2.1, fun heq => le_antisymm (hcond.2.2 heq) hmnonneg⟩

/-- Witness for C4: an 08:00 start with default 9-17 office hours satisfies
the start-hour-too-early disjunct, so `book` answers
`rejected/outside_office_hours`. -/
theorem book_office_hours_iff_witness :
    (book { fullReq with bookingTime := some 480 }
      { now := 0, blockBusy := 0, mainBusy := 0 }).1 =
      BookResp.rejected "outside_office_hours" :=
  (book_office_hours_iff _ _ 480 (by decide) rfl (by decide) (by decide)).1.mpr
    (by decide)

/-! ### POST /testdrive (index.js:801-1005; src/unnamed/part_001:258-506) -/

/-- Persisted appointment row, the fields of the `insertPayload`
(index.js:912-931) that the claims touch. -/
structure Appt where
  id : Nat
  idemKey : String
  businessId : String
  name : String
  carUnitId : Option String
  startsAt : Int
  gcalEventId : Option String
deriving DecidableEq, Repr

/-- State of the Supabase `appointments` table: its rows plus the next id the
store will assign to a fresh insert. -/
structure Db where
  rows : List Appt
  nextId : Nat
deriving Repr

/-- Outcome of the `pick_free_car` RPC (index.js:887-901). -/
inductive Rpc where
  | rpcError
  | noCar
  | car (id : String)
deriving DecidableEq, Repr

/-- External-world inputs of one `/testdrive` call: current time, freebusy
busy-list lengths, the allocation RPC's answer, and the calendar-event
insertion outcome (`none` = `calendar.events.insert` threw). -/
structure TdEnv where
  now : Int
  blockBusy : Nat
  mainBusy : Nat
  pickCar : Rpc
  calInsert : Option String

/-- Request fields read by `/testdrive` (index.js:805-812).  Office bounds
are fractional hours scaled to minutes-of-day (default 7.5 → 450 and
20 → 1200, index.js:818-827). -/
structure TdReq where
  name : String
  email : Option String
  phone : Option String
  bookingTime : Option Int
  calendarId : String
  blockingCalendarId : Option String
  specialNotes : Option String
  model : Option String
  businessId : String
  officeStartMin : Option Int
  officeEndMin : Option Int
  maxOverlaps : Option Int

/-- Responses `/testdrive` can produce. -/
inductive TdResp where
  | err (msg : String)
  | rejected (reason : String)
  | success (apptId : Nat) (eventId : Option String)
deriving DecidableEq, Repr

/-- Effective ceiling: `parseInt(maxOverlaps, 10) || DEFAULTS.maxOverlaps`
with default 3 (index.js:874). -/
def effTdMax (req : TdReq) : Int :=
  match req.maxOverlaps with
  | some m => if m = 0 then 3 else m
  | none => 3

/-- Effective opening bound `data.officeStart ?? 7.5`, in minutes-of-day
(index.js:826). -/
def effTdStart (req : TdReq) : Int := req.officeStartMin.getD 450

/-- Effective closing bound `data.officeEnd ?? 20`, in minutes-of-day
(index.js:827). -/
def effTdEnd (req : TdReq) : Int := req.officeEndMin.getD 1200

/-- Idempotency key `[businessId, 'testdrive', start, normalized name]`
joined with `|` (index.js:904-909). -/
def tdIdem (businessId : String) (startsAt : Int) (name : String) : String :=
  String.intercalate "|" [businessId, "testdrive", toString startsAt,
    lowerStr (trimStr name)]

/-- Supabase `upsert([payload], { onConflict: 'idem_key' })` returning the
row id (index.js:934-938): a row with the same `idem_key` is updated in
place keeping its id, otherwise a fresh row is inserted. -/
def upsertAppt (db : Db) (mk : Nat → Appt) (key : String) : Nat × Db :=
  match db.rows.find? (fun r => r.idemKey == key) with
  | some r =>
      (r.id,
       { db with rows := db.rows.map (fun q =>
                    if q.idemKey == key then mk r.id else q) })
  | none =>
      (db.nextId,
       { rows := db.rows ++ [mk db.nextId], nextId := db.nextId + 1 })

/-- Appointment payload built by `/testdrive` (index.js:912-931), keyed by
the row id the store assigns. -/
def mkRow (req : TdReq) (t : Int) (chosen : Option String) (i : Nat) : Appt :=
  { id := i, idemKey := tdIdem req.businessId t req.name,
    businessId := req.businessId, name := req.name, carUnitId := chosen,
    startsAt := t, gcalEventId := none }

/-- Persistence tail of `/testdrive` (index.js:903-995): upsert the
appointment, then insert the calendar event; on a calendar failure delete the
just-persisted row and fail with `calendar_insert_failed`
(index.js:965-973), otherwise attach the event id (index.js:975-980). -/
def tdPersist (req : TdReq) (env : TdEnv) (db : Db) (t : Int)
    (chosen : Option String) : TdResp × Db :=
  let res := upsertAppt db (mkRow req t chosen) (tdIdem req.businessId t req.name)
  match env.calInsert with
  | none =>
      (TdResp.err "calendar_insert_failed",
       { res.2 with rows := res.2.rows.filter (fun r => r.id != res.1) })
  | some g =>
      (TdResp.success res.1 (some g),
       { res.2 with rows := res.2.rows.map (fun r =>
            if r.id == res.1 then { r with gcalEventId := some g } else r) })

/-- Body of `/testdrive` after the missing-field validation, with `t` the
parsed local start instant (index.js:831-1005).  The office-hours comparison
is the fractional `h0 < officeStart || h1 > officeEnd` (index.js:846-851),
written over minutes-of-day; the test-drive duration is fixed at 30 minutes
(index.js:823,829). -/
def tdChecked (req : TdReq) (env : TdEnv) (db : Db) (t : Int) : TdResp × Db :=
  if t - env.now < 30 then
    (TdResp.rejected "too_soon", db)
  else if minutesOfDay t < effTdStart req ∨
      effTdEnd req < minutesOfDay (t + 30) then
    (TdResp.rejected "outside_office_hours", db)
  else if 0 < env.blockBusy then
    (TdResp.rejected "slot_blocked", db)
  else if effTdMax req ≤ (env.mainBusy : Int) then
    (TdResp.rejected "slot_full", db)
  else
    match req.model with
    | none => tdPersist req env db t none
    | some _ =>
      match env.pickCar with
      | Rpc.rpcError => (TdResp.err "car_allocation_failed", db)
      | Rpc.noCar => (TdResp.rejected "no_unit_available", db)
      | Rpc.car c => tdPersist req env db t (some c)

/-- Route `POST /testdrive` (index.js:801-1005): required-field validation
(index.js:813-815) and then the checked pipeline. -/
def testdrive (req : TdReq) (env : TdEnv) (db : Db) : TdResp × Db :=
  if req.name = "" ∨ req.bookingTime = none ∨ req.calendarId = "" ∨
      req.businessId = "" then
    (TdResp.err "missing_fields", db)
  else
    tdChecked req env db (req.bookingTime.getD 0)

/-- Rows of `db` carrying a given idempotency key. -/
def countKey (db : Db) (k : String) : Nat :=
  (db.rows.filter (fun r => r.idemKey == k)).length

theorem testdrive_reaches_persist (req : TdReq) (env : TdEnv) (db : Db)
    (t : Int)
    (hname : req.name ≠ "") (hbt : req.bookingTime = some t)
    (hcal : req.calendarId ≠ "") (hbiz : req.businessId ≠ "")
    (hlead : 30 ≤ t - env.now)
    (hhours : ¬(minutesOfDay t < effTdStart req ∨
      effTdEnd req < minutesOfDay (t + 30)))
    (hblock : env.blockBusy = 0)
    (hmain : (env.mainBusy : Int) < effTdMax req)
    (hmodel : req.model = none) :
    testdrive req env db = tdPersist req env db t none := by
  unfold testdrive
  rw [if_neg (by simp [hname, hbt, hcal, hbiz]), hbt]
  simp only [Option.getD_some]
  unfold tdChecked
  rw [if_neg (by omega), if_neg hhours, if_neg (by omega), if_neg (by omega),
    hmodel]

/-- C6 — rollback on calendar failure.  If the appointment upsert persisted a
fresh row but `calendar.events.insert` throws, `/testdrive` deletes the
just-persisted row and answers `calendar_insert_failed`: the final table
equals the initial one, so no persisted appointment outlives the failed
event creation (index.js:965-973). -/
theorem testdrive_calendar_rollback (req : TdReq) (env : TdEnv) (db : Db)
    (t : Int)
    (hname : req.name ≠ "") (hbt : req.bookingTime = some t)
    (hcal : req.calendarId ≠ "") (hbiz : req.businessId ≠ "")
    (hlead : 30 ≤ t - env.now)
    (hhours : ¬(minutesOfDay t < effTdStart req ∨
      effTdEnd req < minutesOfDay (t + 30)))
    (hblock : env.blockBusy = 0)
    (hmain : (env.mainBusy : Int) < effTdMax req)
    (hmodel : req.model = none)
    (hins : env.calInsert = none)
    (hfresh : ∀ r ∈ db.rows, r.idemKey ≠ tdIdem req.businessId t req.name)
    (hids : ∀ r ∈ db.rows, r.id ≠ db.nextId) :
    (testdrive req env db).1 = TdResp.err "calendar_insert_failed" ∧
    (testdrive req env db).2.rows = db.rows := by
  have hstep := testdrive_reaches_persist req env db t hname hbt hcal hbiz
    hlead hhours hblock hmain hmodel
  have hfind : db.rows.find?
      (fun r => r.idemKey == tdIdem req.businessId t req.name) = none := by
    rw [List.find?_eq_none]
    intro r hr
    simpa using hfresh r hr
  rw [hstep]
  unfold tdPersist upsertAppt
  simp only [hfind, hins]
  refine ⟨trivial, ?_⟩
  show (db.rows ++ _).filter _ = db.rows
  rw [List.filter_append]
  have h1 : db.rows.filter (fun r => r.id != db.nextId) = db.rows :=
    List.filter_eq_self.mpr (fun a ha => by simpa using hids a ha)
  simp [h1, mkRow]

/-- Concrete request for the `/testdrive` claims: 10:00 start, defaults, no
resource pool. -/
def tdReqA : TdReq :=
  { name := "Bob", email := none, phone := none, bookingTime := some 600,
    calendarId := "cal", blockingCalendarId := none, specialNotes := none,
    model := none, businessId := "biz", officeStartMin := none,
    officeEndMin := none, maxOverlaps := none }

/-- Environment where the calendar-event insertion throws. -/
def tdEnvFail : TdEnv :=
  { now := 0, blockBusy := 0, mainBusy := 0, pickCar := Rpc.noCar,
    calInsert := none }

/-- Empty appointments table. -/
def tdDb0 : Db := { rows := [], nextId := 0 }

/-- Witness for C6 at a concrete input: the persisted row is rolled back and
the response is `calendar_insert_failed`. -/
theorem testdrive_calendar_rollback_witness :
    (testdrive tdReqA tdEnvFail tdDb0).1 = TdResp.err "calendar_insert_failed" ∧
    (testdrive tdReqA tdEnvFail tdDb0).2.rows = tdDb0.rows :=
  testdrive_calendar_rollback tdReqA tdEnvFail tdDb0 600 (by decide) rfl
    (by decide) (by decide) (by decide) (by decide) rfl (by decide) rfl rfl
    (by simp [tdDb0]) (by simp [tdDb0])

theorem tdPersist_fresh (req : TdReq) (env : TdEnv) (db : Db) (t : Int)
    (chosen : Option String) (g : String)
    (hfind : db.rows.find?
      (fun r => r.idemKey == tdIdem req.businessId t req.name) = none)
    (hins : env.calInsert = some g) :
    tdPersist req env db t chosen =
      (TdResp.success db.nextId (some g),
       { rows := (db.rows ++ [mkRow req t chosen db.nextId]).map
           (fun r => if r.id == db.nextId then
              { r with gcalEventId := some g } else r),
         nextId := db.nextId + 1 }) := by
  unfold tdPersist upsertAppt
  simp only [hfind, hins]

theorem tdPersist_conflict (req : TdReq) (env : TdEnv) (db : Db) (t : Int)
    (chosen : Option String) (g : String) (r0 : Appt)
    (hfind : db.rows.find?
      (fun r => r.idemKey == tdIdem req.businessId t req.name) = some r0)
    (hins : env.calInsert = some g) :
    tdPersist req env db t chosen =
      (TdResp.success r0.id (some g),
       { rows := (db.rows.map (fun q =>
            if q.idemKey == tdIdem req.businessId t req.name then
              mkRow req t chosen r0.id else q)).map
           (fun q => if q.id == r0.id then
              { q with gcalEventId := some g } else q),
         nextId := db.nextId }) := by
  unfold tdPersist upsertAppt
  simp only [hfind, hins]

theorem gcalUpdate_keeps_key (g : Option String) (i : Nat) (q : Appt) :
    (if q.id == i then { q with gcalEventId := g } else q).idemKey =
      q.idemKey := by
  split <;> rfl

/-- C7 — idempotency.  Two test-drive requests sharing business, action type,
start instant and case/whitespace-normalized name produce the same
idempotency key (index.js:904-909); running them back to back against a
table that does not hold that key yet leaves exactly one row with the key,
adds exactly one row overall, and the second call answers with the row id the
first call created — the upsert on `idem_key` (index.js:934-938) updates the
existing row instead of inserting a second one. -/
theorem testdrive_idem_upsert (req1 req2 : TdReq) (e1 e2 : TdEnv) (db : Db)
    (t : Int) (g1 g2 : String)
    (hb : req2.businessId = req1.businessId)
    (ht2 : req2.bookingTime = some t)
    (hn : lowerStr (trimStr req2.name) = lowerStr (trimStr req1.name))
    (hname1 : req1.name ≠ "") (ht1 : req1.bookingTime = some t)
    (hcal1 : req1.calendarId ≠ "") (hbiz1 : req1.businessId ≠ "")
    (hlead1 : 30 ≤ t - e1.now)
    (hhours1 : ¬(minutesOfDay t < effTdStart req1 ∨
      effTdEnd req1 < minutesOfDay (t + 30)))
    (hblock1 : e1.blockBusy = 0) (hmain1 : (e1.mainBusy : Int) < effTdMax req1)
    (hmodel1 : req1.model = none) (hins1 : e1.calInsert = some g1)
    (hname2 : req2.name ≠ "") (hcal2 : req2.calendarId ≠ "")
    (hbiz2 : req2.businessId ≠ "")
    (hlead2 : 30 ≤ t - e2.now)
    (hhours2 : ¬(minutesOfDay t < effTdStart req2 ∨
      effTdEnd req2 < minutesOfDay (t + 30)))
    (hblock2 : e2.blockBusy = 0) (hmain2 : (e2.mainBusy : Int) < effTdMax req2)
    (hmodel2 : req2.model = none) (hins2 : e2.calInsert = some g2)
    (hfresh : ∀ r ∈ db.rows, r.idemKey ≠ tdIdem req1.businessId t req1.name) :
    countKey (testdrive req2 e2 (testdrive req1 e1 db).2).2
        (tdIdem req1.businessId t req1.name) = 1 ∧
    (testdrive req2 e2 (testdrive req1 e1 db).2).2.rows.length =
        db.rows.length + 1 ∧
    (testdrive req2 e2 (testdrive req1 e1 db).2).1 =
        TdResp.success db.nextId (some g2) := by
  have hkey2 : tdIdem req2.businessId t req2.name =
      tdIdem req1.businessId t req1.name := by
    unfold tdIdem
    rw [hb, hn]
  have hfind1 : db.rows.find?
      (fun r => r.idemKey == tdIdem req1.businessId t req1.name) = none := by
    rw [List.find?_eq_none]
    intro r hr
    simpa using hfresh r hr
  have hrun1 : testdrive req1 e1 db =
      (TdResp.success db.nextId (some g1),
       { rows := (db.rows ++ [mkRow req1 t none db.nextId]).map
           (fun r => if r.id == db.nextId then
              { r with gcalEventId := some g1 } else r),
         nextId := db.nextId + 1 }) := by
    rw [testdrive_reaches_persist req1 e1 db t hname1 ht1 hcal1 hbiz1 hlead1
      hhours1 hblock1 hmain1 hmodel1]
    exact tdPersist_fresh req1 e1 db t none g1 hfind1 hins1
  rw [hrun1]
  set a1g : Appt :=
    { mkRow req1 t none db.nextId with gcalEventId := some g1 } with ha1g
  set db1 : Db :=
    { rows := (db.rows ++ [mkRow req1 t none db.nextId]).map
        (fun r => if r.id == db.nextId then
           { r with gcalEventId := some g1 } else r),
      nextId := db.nextId + 1 } with hdb1
  have hrows1 : db1.rows = db.rows.map
      (fun r => if r.id == db.nextId then
         { r with gcalEventId := some g1 } else r) ++ [a1g] := by
    rw [hdb1, ha1g]
    simp [mkRow]
  have hfind2 : db1.rows.find?
      (fun r => r.idemKey == tdIdem req2.businessId t req2.name) =
        some a1g := by
    rw [hkey2, hrows1, List.find?_append]
    have hA : (db.rows.map (fun r => if r.id == db.nextId then
        { r with gcalEventId := some g1 } else r)).find?
        (fun r => r.idemKey == tdIdem req1.businessId t req1.name) = none := by
      rw [List.find?_eq_none]
      intro x hx
      obtain ⟨q, hq, rfl⟩ := List.mem_map.mp hx
      simp only [gcalUpdate_keeps_key]
      simpa using hfresh q hq
    rw [hA]
    simp [ha1g, mkRow]
  have hrun2 : testdrive req2 e2 db1 =
      (TdResp.success a1g.id (some g2),
       { rows := (db1.rows.map (fun q =>
            if q.idemKey == tdIdem req2.businessId t req2.name then
              mkRow req2 t none a1g.id else q)).map
           (fun q => if q.id == a1g.id then
              { q with gcalEventId := some g2 } else q),
         nextId := db1.nextId }) := by
    rw [testdrive_reaches_persist req2 e2 db1 t hname2 ht2 hcal2 hbiz2 hlead2
      hhours2 hblock2 hmain2 hmodel2]
    exact tdPersist_conflict req2 e2 db1 t none g2 a1g hfind2 hins2
  show countKey (testdrive req2 e2 db1).2 _ = 1 ∧
    (testdrive req2 e2 db1).2.rows.length = db.rows.length + 1 ∧
    (testdrive req2 e2 db1).1 = TdResp.success db.nextId (some g2)
  rw [hrun2]
  have hida : a1g.id = db.nextId := by
    rw [ha1g]
    rfl
  refine ⟨?_, ?_, by rw [hida]⟩
  · unfold countKey
    rw [← List.countP_eq_length_filter, List.countP_map, List.countP_map]
    have hbool : ∀ q : Appt,
        (((fun r : Appt => r.idemKey == tdIdem req1.businessId t req1.name) ∘
          (fun q => if q.id == a1g.id then
             { q with gcalEventId := some g2 } else q)) ∘
          (fun q => if q.idemKey == tdIdem req2.businessId t req2.name then
             mkRow req2 t none a1g.id else q)) q =
        (fun r : Appt =>
          r.idemKey == tdIdem req1.businessId t req1.name) q := by
      intro q
      simp only [Function.comp_apply, gcalUpdate_keeps_key, hkey2]
      by_cases hq : q.idemKey = tdIdem req1.businessId t req1.name
      · simp [hq, mkRow, hkey2]
      · simp [hq]
    have hpoint : ∀ q ∈ db1.rows,
        ((((fun r : Appt => r.idemKey == tdIdem req1.businessId t req1.name) ∘
          (fun q => if q.id == a1g.id then
             { q with gcalEventId := some g2 } else q)) ∘
          (fun q => if q.idemKey == tdIdem req2.businessId t req2.name then
             mkRow req2 t none a1g.id else q)) q = true ↔
        (fun r : Appt =>
          r.idemKey == tdIdem req1.businessId t req1.name) q = true) :=
      fun q _ => by rw [hbool q]
    rw [List.countP_congr hpoint, hrows1, List.countP_append,
      List.countP_map]
    have hzero : db.rows.countP
        ((fun r : Appt => r.idemKey == tdIdem req1.businessId t req1.name) ∘
          (fun r => if r.id == db.nextId then
             { r with gcalEventId := some g1 } else r)) = 0 := by
      rw [List.countP_eq_zero]
      intro q hq
      simp only [Function.comp_apply, gcalUpdate_keeps_key]
      simpa using hfresh q hq
    rw [hzero]
    simp [ha1g, mkRow]
  · simp [hrows1]

/-- Retry of `tdReqA` with a differently-capitalized, padded name; it
normalizes to the same idempotency key. -/
def tdReqB : TdReq := { tdReqA with name := " bob " }

/-- Environment for the first run: calendar insertion succeeds. -/
def tdEnvOk1 : TdEnv :=
  { now := 0, blockBusy := 0, mainBusy := 0, pickCar := Rpc.noCar,
    calInsert := some "evt1" }

/-- Environment for the retry: calendar insertion succeeds with another id. -/
def tdEnvOk2 : TdEnv := { tdEnvOk1 with calInsert := some "evt2" }

/-- Witness for C7 at a concrete input: the retried request leaves exactly
one row with the shared idempotency key. -/
theorem testdrive_idem_upsert_witness :
    countKey (testdrive tdReqB tdEnvOk2 (testdrive tdReqA tdEnvOk1 tdDb0).2).2
        (tdIdem tdReqA.businessId 600 tdReqA.name) = 1 :=
  (testdrive_idem_upsert tdReqA tdReqB tdEnvOk1 tdEnvOk2 tdDb0 600 "evt1"
    "evt2" rfl rfl (by decide) (by decide) rfl (by decide) (by decide)
    (by decide) (by decide) rfl (by decide) rfl rfl (by decide) (by decide)
    (by decide) (by decide) (by decide) rfl (by decide) rfl rfl
    (by simp [tdDb0])).1

/-! ### CANCEL (index.js:1181-1281; src/unnamed/part_001:677-777) -/

/-- Stored `metadata` of a stats row; every field is optional, matching the
`meta.name || ''`, `meta.email`, `meta.phone`, `match.metadata?.start`
accesses.  `start` is a UTC instant in minutes. -/
structure Meta where
  name : Option String
  email : Option String
  phone : Option String
  start : Option Int
deriving DecidableEq, Repr

/-- One row of the store's answer to the cancel query
(index.js:1190-1197). -/
structure StatEntry where
  appointment_id : String
  metadata : Meta
deriving DecidableEq, Repr

/-- Request fields read by `cancel` (index.js:1182). `none` models an
absent/falsy email or phone. -/
structure CancelReq where
  name : String
  email : Option String
  phone : Option String
  calendarId : String
  businessId : String

/-- Outcome of `calendar.events.delete`: success, a thrown error with
`err.code === 410` (resource already gone), or any other thrown error. -/
inductive DelOutcome where
  | ok
  | gone
  | fail
deriving DecidableEq, Repr

/-- External-world inputs of one `cancel` call: the current time and the
calendar-deletion outcome per event id. -/
structure CancelEnv where
  now : Int
  calDelete : String → DelOutcome

/-- Responses `cancel` can produce (index.js:1185-1280). -/
inductive CancelResp where
  | err (msg : String)
  | notFound (msg : String)
  | rejected (reason : String)
  | cancelled (apptId : String)
  | alreadyDeleted
deriving DecidableEq, Repr

/-- Identity filter building `possibleMatches` (index.js:1204-1217):
case-insensitive name equality AND (case-insensitive email equality OR
string-equal phone), each of the latter only when both sides are present. -/
def cancelMatch (req : CancelReq) (e : StatEntry) : Bool :=
  let nameMatch := lowerStr (e.metadata.name.getD "") == lowerStr req.name
  let emailMatch :=
    match req.email, e.metadata.email with
    | some em, some me => lowerStr me == lowerStr em
    | _, _ => false
  let phoneMatch :=
    match req.phone, e.metadata.phone with
    | some p, some mp => mp == p
    | _, _ => false
  nameMatch && (emailMatch || phoneMatch)

/-- Deletion attempt for a selected match (index.js:1237-1276): delete the
calendar event; on success purge the stats row and report `cancelled`; on a
410 purge the stats row and report the already-deleted outcome; on any other
error report a failure without purging.  The second component collects the
`appointment_id`s whose stats rows were deleted. -/
def attemptDelete (env : CancelEnv) (m : StatEntry) :
    CancelResp × List String :=
  match env.calDelete m.appointment_id with
  | DelOutcome.ok => (CancelResp.cancelled m.appointment_id, [m.appointment_id])
  | DelOutcome.gone => (CancelResp.alreadyDeleted, [m.appointment_id])
  | DelOutcome.fail => (CancelResp.err "Failed to cancel appointment", [])

/-- Loop over `possibleMatches` (index.js:1224-1280): a candidate whose
stored start is present and less than 60 minutes away is skipped
(`continue`); the first remaining candidate is attempted; an exhausted loop
answers `rejected/too_close_to_cancel`. -/
def cancelLoop (env : CancelEnv) : List StatEntry → CancelResp × List String
  | [] => (CancelResp.rejected "too_close_to_cancel", [])
  | m :: rest =>
    match m.metadata.start with
    | some t =>
        if t - env.now < 60 then cancelLoop env rest
        else attemptDelete env m
    | none => attemptDelete env m

/-- Function `cancel` (index.js:1181-1281).  The store's answer to the
booked-and-upcoming query (index.js:1190-1197) is the `queryResult` input;
the function validates fields (index.js:1184-1186), handles an empty answer
(index.js:1199-1201), filters identity matches (index.js:1204-1221) and runs
the deletion loop. -/
def cancel (req : CancelReq) (env : CancelEnv)
    (queryResult : List StatEntry) : CancelResp × List String :=
  if req.name = "" ∨ (req.email = none ∧ req.phone = none) ∨
      req.calendarId = "" ∨ req.businessId = "" then
    (CancelResp.err "Missing required fields", [])
  else if queryResult.isEmpty then
    (CancelResp.notFound "No recent appointments found", [])
  else if (queryResult.filter (cancelMatch req)).isEmpty then
    (CancelResp.notFound "No matching appointment", [])
  else
    cancelLoop env (queryResult.filter (cancelMatch req))

/-- Candidate eligibility for deletion: stored start absent, or at least 60
minutes away. -/
def eligible (env : CancelEnv) (m : StatEntry) : Bool :=
  match m.metadata.start with
  | some t => decide (60 ≤ t - env.now)
  | none => true

theorem cancelLoop_eq_find (env : CancelEnv) (ms : List StatEntry) :
    cancelLoop env ms =
      match ms.find? (eligible env) with
      | some m => attemptDelete env m
      | none => (CancelResp.rejected "too_close_to_cancel", []) := by
  induction ms with
  | nil => rfl
  | cons m rest ih =>
    cases hs : m.metadata.start with
    | some t =>
      unfold cancelLoop
      simp only [hs]
      by_cases hlt : t - env.now < 60
      · have he : eligible env m = false := by
          simp only [eligible, hs, decide_eq_false_iff_not]
          omega
        rw [if_pos hlt, List.find?_cons_of_neg _ (by simp [he])]
        exact ih
      · have he : eligible env m = true := by
          simp only [eligible, hs, decide_eq_true_eq]
          omega
        rw [if_neg hlt, List.find?_cons_of_pos _ he]
    | none =>
      have he : eligible env m = true := by
        simp [eligible, hs]
      unfold cancelLoop
      simp only [hs]
      rw [List.find?_cons_of_pos _ he]

/-- C8 — cancellation lead time.  (a) Every stats row `cancel` purges belongs
to an identity match whose stored start, when present, is at least 60 minutes
away — a candidate starting sooner is never deleted.  (b) When identity
matches exist but every one of them has a stored start less than 60 minutes
away, `cancel` answers `rejected/too_close_to_cancel` and purges nothing
(index.js:1224-1280). -/
theorem cancel_lead_time_guard :
    (∀ (req : CancelReq) (env : CancelEnv) (qr : List StatEntry) (id : String),
      id ∈ (cancel req env qr).2 →
      ∃ m ∈ qr.filter (cancelMatch req), m.appointment_id = id ∧
        ∀ t, m.metadata.start = some t → 60 ≤ t - env.now) ∧
    (∀ (req : CancelReq) (env : CancelEnv) (qr : List StatEntry),
      req.name ≠ "" → (req.email ≠ none ∨ req.phone ≠ none) →
      req.calendarId ≠ "" → req.businessId ≠ "" →
      qr.filter (cancelMatch req) ≠ [] →
      (∀ m ∈ qr.filter (cancelMatch req),
        ∃ t, m.metadata.start = some t ∧ t - env.now < 60) →
      cancel req env qr = (CancelResp.rejected "too_close_to_cancel", [])) := by
  constructor
  · intro req env qr id hid
    unfold cancel at hid
    split at hid
    · simp at hid
    · split at hid
      · simp at hid
      · split at hid
        · simp at hid
        · rw [cancelLoop_eq_find] at hid
          cases hf : (qr.filter (cancelMatch req)).find? (eligible env) with
          | none =>
            rw [hf] at hid
            simp at hid
          | some m =>
            rw [hf] at hid
            have hmem := List.mem_of_find?_eq_some hf
            have helig := List.find?_some hf
            have hid' : id ∈ (attemptDelete env m).2 := hid
            refine ⟨m, hmem, ?_, ?_⟩
            · unfold attemptDelete at hid'
              cases hdel : env.calDelete m.appointment_id with
              | ok =>
                rw [hdel] at hid'
                simp at hid'
                exact hid'.symm
              | gone =>
                rw [hdel] at hid'
                simp at hid'
                exact hid'.symm
              | fail =>
                rw [hdel] at hid'
                simp at hid'
            · intro t ht
              unfold eligible at helig
              rw [ht] at helig
              simpa using helig
  · intro req env qr hname hior hcal hbiz hne hall
    unfold cancel
    rw [if_neg (by
      push_neg
      refine ⟨hname, fun h => ?_, hcal, hbiz⟩
      rcases hior with h1 | h1 <;> simp_all)]
    rw [if_neg (by
      have hqr : qr ≠ [] := fun h => hne (by simp [h])
      simpa using hqr)]
    rw [if_neg (by simpa using hne)]
    rw [cancelLoop_eq_find]
    have hnone : (qr.filter (cancelMatch req)).find? (eligible env) = none := by
      rw [List.find?_eq_none]
      intro m hm
      obtain ⟨t, ht, hlt⟩ := hall m hm
      simp only [eligible, ht]
      simpa using by omega
    rw [hnone]

/-- C9 — tolerate already-gone.  When the deletion loop selects a match (the
first eligible one) and the external calendar delete reports the 410
already-gone error, `cancel` still purges the match's stats row and reports
the already-deleted outcome rather than an error (index.js:1257-1272). -/
theorem cancel_gone_purges (req : CancelReq) (env : CancelEnv)
    (qr : List StatEntry) (m : StatEntry)
    (hname : req.name ≠ "") (hior : req.email ≠ none ∨ req.phone ≠ none)
    (hcal : req.calendarId ≠ "") (hbiz : req.businessId ≠ "")
    (hfind : (qr.filter (cancelMatch req)).find? (eligible env) = some m)
    (hdel : env.calDelete m.appointment_id = DelOutcome.gone) :
    cancel req env qr = (CancelResp.alreadyDeleted, [m.appointment_id]) := by
  have hne : qr.filter (cancelMatch req) ≠ [] := by
    intro h
    rw [h] at hfind
    simp at hfind
  unfold cancel
  rw [if_neg (by
    push_neg
    refine ⟨hname, fun h => ?_, hcal, hbiz⟩
    rcases hior with h1 | h1 <;> simp_all)]
  rw [if_neg (by
    have hqr : qr ≠ [] := fun h => hne (by simp [h])
    simpa using hqr)]
  rw [if_neg (by simpa using hne)]
  rw [cancelLoop_eq_find, hfind]
  show attemptDelete env m = _
  unfold attemptDelete
  rw [hdel]

/-- C10 — missing stored start bypasses the lead-time guard.  If the first
identity-matching candidate has no `metadata.start`, the 60-minute check is
skipped for it (the `if (startTimeISO)` guard at index.js:1226-1235): its
calendar event is deleted and, on success, its stats row purged, with no
constraint relating the appointment to the current time. -/
theorem cancel_missing_start_bypass (req : CancelReq) (env : CancelEnv)
    (qr : List StatEntry) (m : StatEntry) (rest : List StatEntry)
    (hname : req.name ≠ "") (hior : req.email ≠ none ∨ req.phone ≠ none)
    (hcal : req.calendarId ≠ "") (hbiz : req.businessId ≠ "")
    (hfilter : qr.filter (cancelMatch req) = m :: rest)
    (hstart : m.metadata.start = none)
    (hdel : env.calDelete m.appointment_id = DelOutcome.ok) :
    cancel req env qr = (CancelResp.cancelled m.appointment_id,
      [m.appointment_id]) := by
  unfold cancel
  rw [if_neg (by
    push_neg
    refine ⟨hname, fun h => ?_, hcal, hbiz⟩
    rcases hior with h1 | h1 <;> simp_all)]
  rw [if_neg (by
    have hqr : qr ≠ [] := by
      intro h
      rw [h] at hfilter
      simp at hfilter
    simpa using hqr)]
  rw [if_neg (by simp [hfilter])]
  rw [hfilter]
  unfold cancelLoop
  simp only [hstart]
  unfold attemptDelete
  rw [hdel]

/-- Concrete cancel request with a name and an email. -/
def cReq : CancelReq :=
  { name := "Cara", email := some "c@x.com", phone := none,
    calendarId := "cal", businessId := "b" }

/-- Identity-matching stats row starting 30 minutes from `now = 0`. -/
def cEntrySoon : StatEntry :=
  { appointment_id := "a1",
    metadata := { name := some "Cara", email := some "c@x.com",
                  phone := none, start := some 30 } }

/-- Identity-matching stats row starting 600 minutes from `now = 0`. -/
def cEntryLater : StatEntry :=
  { appointment_id := "a2",
    metadata := { name := some "Cara", email := some "c@x.com",
                  phone := none, start := some 600 } }

/-- Identity-matching stats row with no stored start. -/
def cEntryNoStart : StatEntry :=
  { appointment_id := "a3",
    metadata := { name := some "Cara", email := some "c@x.com",
                  phone := none, start := none } }

/-- Environment whose calendar deletions succeed. -/
def cEnvOk : CancelEnv := { now := 0, calDelete := fun _ => DelOutcome.ok }

/-- Environment whose calendar deletions report 410 already-gone. -/
def cEnvGone : CancelEnv := { now := 0, calDelete := fun _ => DelOutcome.gone }

/-- Witness for C8 at a concrete input: the only identity match starts 30
minutes away, so cancellation is refused with `too_close_to_cancel` and
nothing is purged. -/
theorem cancel_lead_time_guard_witness :
    cancel cReq cEnvOk [cEntrySoon] =
      (CancelResp.rejected "too_close_to_cancel", []) :=
  cancel_lead_time_guard.2 cReq cEnvOk [cEntrySoon] (by decide) (by decide)
    (by decide) (by decide) (by decide)
    (by
      intro m hm
      have hm1 : m ∈ [cEntrySoon] := (List.mem_filter.mp hm).1
      have hm2 : m = cEntrySoon := by simpa using hm1
      subst hm2
      exact ⟨30, rfl, by decide⟩)

/-- Witness for C9 at a concrete input: deleting the selected match reports
410; the stats row is purged anyway and the outcome is already-deleted. -/
theorem cancel_gone_purges_witness :
    cancel cReq cEnvGone [cEntryLater] =
      (CancelResp.alreadyDeleted, [cEntryLater.appointment_id]) :=
  cancel_gone_purges cReq cEnvGone [cEntryLater] cEntryLater (by decide)
    (by decide) (by decide) (by decide) (by decide) rfl

/-- Witness for C10 at a concrete input: the first match has no stored start,
so it is cancelled and purged with `now` arbitrary. -/
theorem cancel_missing_start_bypass_witness :
    cancel cReq cEnvOk [cEntryNoStart] =
      (CancelResp.cancelled cEntryNoStart.appointment_id,
       [cEntryNoStart.appointment_id]) :=
  cancel_missing_start_bypass cReq cEnvOk [cEntryNoStart] cEntryNoStart []
    (by decide) (by decide) (by decide) (by decide) (by decide) rfl rfl

/-! ### FIND NEAREST SLOT (index.js:1287-1357) -/

/-- Direction tag of a candidate slot: `dir > 0 ? 'after' : 'before'`. -/
inductive Dir where
  | before
  | after
deriving DecidableEq, Repr

/-- Request fields read by `findNearest` (index.js:1288-1298).  As in
`book`, the office-hours comparison uses the whole-hour accessors. -/
structure FnReq where
  bookingTime : Option Int
  calendarId : String
  blockingCalendarId : Option String
  officeStart : Option Int
  officeEnd : Option Int
  durationMin : Option Int
  maxOverlaps : Option Int

/-- External-world inputs: per candidate start instant, the blocking
calendar's freebusy busy-list length (index.js:1317-1325) and the primary
calendar's `events.list` item count (index.js:1327-1334) over the candidate
window. -/
structure FnEnv where
  blockBusy : Int → Nat
  listCount : Int → Nat

/-- Responses `findNearest` can produce. -/
inductive FnResp where
  | err (msg : String)
  | notFound (msg : String)
  | available (start : Int) (finish : Int) (dir : Dir)
deriving DecidableEq, Repr

/-- `data.durationMin || DEFAULTS.durationMin` (index.js:1296). -/
def effFnDur (req : FnReq) : Int :=
  match req.durationMin with
  | some d => if d = 0 then 60 else d
  | none => 60

/-- `data.maxOverlaps || DEFAULTS.maxOverlaps` (index.js:1297). -/
def effFnMax (req : FnReq) : Int :=
  match req.maxOverlaps with
  | some m => if m = 0 then 5 else m
  | none => 5

/-- `data.officeStart ?? DEFAULTS.officeStart` (index.js:1294). -/
def effFnStart (req : FnReq) : Int := req.officeStart.getD 9

/-- `data.officeEnd ?? DEFAULTS.officeEnd` (index.js:1295). -/
def effFnEnd (req : FnReq) : Int := req.officeEnd.getD 17

/-- One candidate passes when it survives the three `continue`s of the loop
body (index.js:1311-1334): office hours hold, the blocking calendar is
clear, and the primary calendar's event count is under the ceiling. -/
def fnPasses (req : FnReq) (env : FnEnv) (t : Int) : Bool :=
  !decide (localHour t < effFnStart req ∨
      localHour (t + effFnDur req) > effFnEnd req ∨
      (localHour (t + effFnDur req) = effFnEnd req ∧
        0 < localMin (t + effFnDur req))) &&
  (env.blockBusy t == 0) &&
  decide ((env.listCount t : Int) < effFnMax req)

/-- The outer loop's offsets `delta = 0, 15, …, 480` minutes
(`delta <= window` with `step = 15 min`, `window = 8 h`,
index.js:1302-1307). -/
def fnDeltas : List Int := (List.range 33).map (fun i => (i : Int) * 15)

/-- Candidate start for an offset and direction:
`wanted + dir * delta` with `dir ∈ [-1, +1]` (index.js:1308-1309). -/
def dirStart (wanted delta : Int) : Dir → Int
  | Dir.before => wanted - delta
  | Dir.after => wanted + delta

/-- Inner `for (dir of [-1, +1])` loop at a fixed `delta` with its `break`
on the first passing candidate (index.js:1308-1338). -/
def fnInner (req : FnReq) (env : FnEnv) (wanted delta : Int) :
    List Dir → Option (Int × Dir)
  | [] => none
  | d :: rest =>
    if fnPasses req env (dirStart wanted delta d) then
      some (dirStart wanted delta d, d)
    else fnInner req env wanted delta rest

/-- Outer `for (delta …)` loop with its `if (best) break`
(index.js:1307-1340). -/
def fnOuter (req : FnReq) (env : FnEnv) (wanted : Int) :
    List Int → Option (Int × Dir)
  | [] => none
  | δ :: rest =>
    match fnInner req env wanted δ [Dir.before, Dir.after] with
    | some r => some r
    | none => fnOuter req env wanted rest

/-- Function `findNearest` (index.js:1287-1357): field validation
(index.js:1289-1291), the two nested scan loops, and the response
(index.js:1342-1356). -/
def findNearest (req : FnReq) (env : FnEnv) : FnResp :=
  if req.calendarId = "" ∨ req.bookingTime = none then
    FnResp.err "Missing calendarId or bookingTime"
  else
    match fnOuter req env (req.bookingTime.getD 0) fnDeltas with
    | some (s, d) => FnResp.available s (s + effFnDur req) d
    | none => FnResp.notFound "No slot found"

/-- Flattened candidate enumeration of the code's scan: at every offset,
`before` then `after`, including both at `delta = 0`. -/
def fnCandidates (wanted : Int) : List (Int × Dir) :=
  fnDeltas.flatMap (fun δ =>
    [(wanted - δ, Dir.before), (wanted + δ, Dir.after)])

/-- Modelled from the spec: claim C5 (and spec §4.5) enumerate the same scan
but "skip the duplicate 'before' candidate at delta = 0", leaving only the
`after`-tagged candidate at the requested instant.  This definition follows
the spec's words; the code has no such skip. -/
def fnClaimCandidates (wanted : Int) : List (Int × Dir) :=
  fnDeltas.flatMap (fun δ =>
    if δ = 0 then [(wanted + δ, Dir.after)]
    else [(wanted - δ, Dir.before), (wanted + δ, Dir.after)])

/-- Modelled from the spec: the nearest-slot search as claim C5 words it,
returning the first passing candidate of `fnClaimCandidates`. -/
def findNearestClaim (req : FnReq) (env : FnEnv) : FnResp :=
  if req.calendarId = "" ∨ req.bookingTime = none then
    FnResp.err "Missing calendarId or bookingTime"
  else
    match (fnClaimCandidates (req.bookingTime.getD 0)).find?
        (fun c => fnPasses req env c.1) with
    | some (s, d) => FnResp.available s (s + effFnDur req) d
    | none => FnResp.notFound "No slot found"

theorem fnOuter_eq_find (req : FnReq) (env : FnEnv) (w : Int)
    (l : List Int) :
    fnOuter req env w l =
      (l.flatMap (fun δ =>
        [(w - δ, Dir.before), (w + δ, Dir.after)])).find?
        (fun c => fnPasses req env c.1) := by
  induction l with
  | nil => rfl
  | cons δ rest ih =>
    have hflat : (δ :: rest).flatMap
        (fun δ => [(w - δ, Dir.before), (w + δ, Dir.after)]) =
        (w - δ, Dir.before) :: (w + δ, Dir.after) ::
          rest.flatMap (fun δ =>
            [(w - δ, Dir.before), (w + δ, Dir.after)]) := by
      simp [List.flatMap_cons]
    rw [hflat]
    simp only [fnOuter, fnInner, dirStart]
    cases h1 : fnPasses req env (w - δ) with
    | true =>
      simp [List.find?, h1]
    | false =>
      cases h2 : fnPasses req env (w + δ) with
      | true =>
        simp [List.find?, h1, h2]
      | false =>
        simpa [List.find?, h1, h2] using ih

/-- C5 (amended) — scan order of the nearest-slot search.  For a valid
request, `findNearest` returns the first candidate of the enumeration
`delta = 0, 15, …, 480 min`, direction `before` then `after` at every offset
— the `delta = 0` duplicate is *not* skipped — that passes office hours, a
clear blocking calendar and an events count under the ceiling, tagged with
its direction, and `not_found` when no candidate passes
(index.js:1302-1344). -/
theorem findNearest_scan_order (req : FnReq) (env : FnEnv) (w : Int)
    (hcal : req.calendarId ≠ "") (hbt : req.bookingTime = some w) :
    findNearest req env =
      match (fnCandidates w).find? (fun c => fnPasses req env c.1) with
      | some (s, d) => FnResp.available s (s + effFnDur req) d
      | none => FnResp.notFound "No slot found" := by
  unfold findNearest
  rw [if_neg (by simp [hcal, hbt]), hbt]
  simp only [Option.getD_some]
  rw [fnOuter_eq_find]
  rfl

/-- Request at 10:00 local with all config defaulted. -/
def fnReqC : FnReq :=
  { bookingTime := some 600, calendarId := "cal",
    blockingCalendarId := none, officeStart := none, officeEnd := none,
    durationMin := none, maxOverlaps := none }

/-- Environment with every candidate window open. -/
def fnEnvOpen : FnEnv := { blockBusy := fun _ => 0, listCount := fun _ => 0 }

/-- Environment with every candidate window at the default event ceiling. -/
def fnEnvBusy : FnEnv := { blockBusy := fun _ => 0, listCount := fun _ => 5 }

/-- Witness for the amended C5: over a fully-booked horizon the scan answers
`not_found`. -/
theorem findNearest_scan_order_witness :
    findNearest fnReqC fnEnvBusy = FnResp.notFound "No slot found" := by
  rw [findNearest_scan_order fnReqC fnEnvBusy 600 (by decide) rfl]
  decide

/-- C5 — counterexample to the claim as stated.  The claim (and spec §4.5)
skip the duplicate `before` candidate at `delta = 0`, which would tag an
acceptable requested slot `after`; the code tries `before` first at every
offset including 0, so an all-open environment returns the requested slot
tagged `before`, and the code disagrees with the claim's algorithm. -/
theorem findNearest_delta0_tag :
    findNearest fnReqC fnEnvOpen = FnResp.available 600 660 Dir.before ∧
    findNearestClaim fnReqC fnEnvOpen = FnResp.available 600 660 Dir.after ∧
    findNearest fnReqC fnEnvOpen ≠ findNearestClaim fnReqC fnEnvOpen :=
  ⟨by decide, by decide, by decide⟩

end Upreach
